import Mathlib

/-!
Verification of the jskit-sdk core against its specification.

This file gives a shallow embedding, in Lean 4, of the subsystems of the
qubickit/jskit-sdk TypeScript SDK that the checked claims are about:

* the JSON integer decoding of the RPC transport (src/rpc/client.ts),
* the tick-bounded confirmation engine (src/tx/confirm.ts),
* the per-source transaction queue (src/tx/tx-queue.ts),
* the contract interface registry and helpers (src/qbi.ts),
* the contract query retry helper (src/contracts.ts),
* the log-stream bootstrap (src/bob/log-stream.ts),
* the passphrase rotation of the seed vault (src/vault.ts).

JavaScript conventions used throughout the embedding:
* a `Uint8Array` is a `List Nat` (only lengths and element values matter);
* a JS `bigint` is an `Int`;
* `undefined` (absent optional value / absent object property) is `none`;
* a thrown exception is the `Except.error` branch of an `Except`;
* an async function that performs external calls is modelled as a pure
  function over an explicit trace of the responses those calls return.
-/

namespace Rpc

/-- Model of a decoded JSON value as the RPC transport sees it.  JSON numbers
that are finite integers are `num`; every other JSON number (fractional,
infinite, NaN after parsing) is collapsed into `numFrac`, since the only thing
`parseJsonInteger` does with them is reject them via its
`Number.isFinite`/`Number.isInteger` guard. -/
inductive Json where
  | num (n : Int)
  | numFrac
  | str (s : String)
  | bool (b : Bool)
  | null
  | obj (fields : List (String × Json))
  | arr (elems : List Json)

/-- Plain structural equality for the fragment of `Json` the claims touch. -/
def Json.beq : Json → Json → Bool
  | .num a, .num b => a == b
  | .numFrac, .numFrac => true
  | .str a, .str b => a == b
  | .bool a, .bool b => a == b
  | .null, .null => true
  | _, _ => false

/-- Structured error raised by the payload validators of the transport
(`RpcError` with an "Invalid RPC payload" message in the source). -/
inductive RpcParseError where
  | invalidPayload (label : String)
deriving DecidableEq

/-- JS property access on the decoded JSON object: `none` plays the role of
`undefined` for a missing key. -/
def jsonLookup (fields : List (String × Json)) (key : String) : Option Json :=
  (fields.find? (fun p => p.1 == key)).map (fun p => p.2)

/-- Accumulator pass of the decimal conversion. -/
def digitsVal : List Char → Nat → Nat
  | [], acc => acc
  | c :: rest, acc => digitsVal rest (10 * acc + (c.toNat - 48))

/-- The `BigInt(string)` conversion of a decimal string: an optional leading
minus sign followed by base-10 digits (only applied under the decimal-string
guard below, where it coincides with the JS semantics). -/
def decStringToInt (s : String) : Int :=
  match s.toList with
  | '-' :: rest => - (digitsVal rest 0 : Int)
  | l => (digitsVal l 0 : Int)

/-- The regular expression test used by the source for decimal strings,
reproducing the check of the pattern -?digits (one or more ASCII digits with
an optional leading minus sign). -/
def isDecimalString (s : String) : Bool :=
  match s.toList with
  | '-' :: rest => rest.length > 0 && rest.all (fun c => c.isDigit)
  | l => l.length > 0 && l.all (fun c => c.isDigit)

/-- Embedding of `parseJsonInteger` (src/rpc/client.ts): a JSON number is
accepted when it is a finite integer; a JSON string is accepted when it
matches the decimal-string pattern; everything else (booleans, objects,
`undefined`, fractional numbers) raises an invalid-payload error. -/
def parseJsonInteger (v : Option Json) (label : String) : Except RpcParseError Int :=
  match v with
  | some (.num n) => .ok n
  | some (.str s) =>
    if isDecimalString s then .ok (decStringToInt s)
    else .error (.invalidPayload label)
  | _ => .error (.invalidPayload label)

/-- Embedding of `expectString` (src/rpc/client.ts). -/
def expectString (v : Option Json) (label : String) : Except RpcParseError String :=
  match v with
  | some (.str s) => .ok s
  | _ => .error (.invalidPayload label)

/-- Embedding of `parseJsonBigintString` (src/rpc/client.ts): the value must
be a string (`expectString` rejects every non-string, JSON numbers included)
and must match the decimal-string pattern. -/
def parseJsonBigintString (v : Option Json) (label : String) : Except RpcParseError Int :=
  match expectString v label with
  | .error e => .error e
  | .ok s =>
    if isDecimalString s then .ok (decStringToInt s)
    else .error (.invalidPayload label)

/-- Confirmed archive transaction record (`QueryTransaction` in the source). -/
structure QueryTx where
  hash : String
  amount : Int
  source : String
  destination : String
  tickNumber : Int
  timestamp : Int
  inputType : Int
  inputSize : Int
  inputData : String
  signature : String
  moneyFlew : Option Bool
deriving DecidableEq

/-- Embedding of `parseQueryTransaction` (src/rpc/client.ts): field-by-field
decoding of an archive transaction record, with `amount` and `timestamp` going
through `parseJsonBigintString` and `tickNumber`/`inputType`/`inputSize`
through `parseJsonInteger`. -/
def parseQueryTransaction (v : Option Json) (label : String) :
    Except RpcParseError QueryTx :=
  match v with
  | some (.obj fields) => do
    let hash ← expectString (jsonLookup fields "hash") (label ++ ".hash")
    let amount ← parseJsonBigintString (jsonLookup fields "amount") (label ++ ".amount")
    let source ← expectString (jsonLookup fields "source") (label ++ ".source")
    let destination ← expectString (jsonLookup fields "destination") (label ++ ".destination")
    let tickNumber ← parseJsonInteger (jsonLookup fields "tickNumber") (label ++ ".tickNumber")
    let timestamp ← parseJsonBigintString (jsonLookup fields "timestamp") (label ++ ".timestamp")
    let inputType ← parseJsonInteger (jsonLookup fields "inputType") (label ++ ".inputType")
    let inputSize ← parseJsonInteger (jsonLookup fields "inputSize") (label ++ ".inputSize")
    let inputData ← expectString (jsonLookup fields "inputData") (label ++ ".inputData")
    let signature ← expectString (jsonLookup fields "signature") (label ++ ".signature")
    match jsonLookup fields "moneyFlew" with
    | some (.bool b) =>
      .ok { hash, amount, source, destination, tickNumber, timestamp,
            inputType, inputSize, inputData, signature, moneyFlew := some b }
    | none =>
      .ok { hash, amount, source, destination, tickNumber, timestamp,
            inputType, inputSize, inputData, signature, moneyFlew := none }
    | some _ => .error (.invalidPayload (label ++ ".moneyFlew"))
  | _ => .error (.invalidPayload label)

end Rpc

namespace Confirm

/-- What one `getTransactionByHash` call returns in the confirmation loop: a
record, a 404 (`RpcError` with `details.status === 404`), or any other RPC
failure. -/
inductive TxLookupResult where
  | record (tx : Rpc.QueryTx)
  | notFound404
  | rpcFailure
deriving DecidableEq

/-- One iteration of the polling loop, as observed from outside: the clock
value `Date.now()` reads at the top of the loop body, the
`getLastProcessedTick` response, and (only consulted when the target tick has
been reached) the `getTransactionByHash` response.  The interleaved sleeps
only advance the clock, which the `now` field of the next step captures. -/
structure PollStep where
  now : Nat
  lastProcessedTick : Int
  lookup : TxLookupResult
deriving DecidableEq

/-- Terminal outcome of `waitForConfirmedTransaction`.  `outOfSteps` marks a
run whose finite response trace ended while the loop would have kept polling;
it corresponds to no terminating execution of the source. -/
inductive ConfirmOutcome where
  | confirmed (tx : Rpc.QueryTx)
  | txNotFoundError
  | timeoutError
  | rpcError
  | outOfSteps
deriving DecidableEq

/-- Embedding of the polling loop of `waitForConfirmedTransaction`
(src/tx/confirm.ts) for a caller that passes no abort signal (the internal
controller never fires, so every `signal.aborted` check is `false` and the
sleeps always complete).  The two mutable flags `reachedTargetTick` and
`sawNotFoundAfterTarget` are threaded explicitly; `step.now - start` is the
`Date.now() - start` of the source (the clock never runs backwards past
`start`). -/
def confirmLoop (start timeoutMs : Nat) (targetTick : Int) :
    List PollStep → Bool → Bool → ConfirmOutcome
  | [], _, _ => .outOfSteps
  | step :: rest, reachedTargetTick, sawNotFoundAfterTarget =>
    if timeoutMs < step.now - start then
      if reachedTargetTick && sawNotFoundAfterTarget then .txNotFoundError
      else .timeoutError
    else if step.lastProcessedTick < targetTick then
      confirmLoop start timeoutMs targetTick rest reachedTargetTick sawNotFoundAfterTarget
    else
      match step.lookup with
      | .record tx => .confirmed tx
      | .notFound404 => confirmLoop start timeoutMs targetTick rest true true
      | .rpcFailure => .rpcError

/-- Entry point of the confirmation engine: both flags start `false`
(src/tx/confirm.ts lines 48-49).  `waitForConfirmation` in the source merely
discards the returned record, so it terminates with the same error. -/
def waitForConfirmedTransaction (start timeoutMs : Nat) (targetTick : Int)
    (steps : List PollStep) : ConfirmOutcome :=
  confirmLoop start timeoutMs targetTick steps false false

/-- Trace-level characterisation used to state claim C1: some executed
iteration of the run (before any timeout exit) reads
`lastProcessedTick >= targetTick` and then receives a 404 from
`getTransactionByHash`.  Iterations after a `record`/non-404-failure response
are never executed, so the scan stops there. -/
def observedNotFoundAfterTarget (start timeoutMs : Nat) (targetTick : Int) :
    List PollStep → Bool
  | [] => false
  | step :: rest =>
    if timeoutMs < step.now - start then false
    else if step.lastProcessedTick < targetTick then
      observedNotFoundAfterTarget start timeoutMs targetTick rest
    else
      match step.lookup with
      | .notFound404 => true
      | _ => false

end Confirm

/-- Association-list lookup with the semantics of JS `Map.get` over string or
numeric keys (first — and by construction only — binding for the key). -/
def assocGet {α β : Type} [DecidableEq α] : List (α × β) → α → Option β
  | [], _ => none
  | p :: rest, k => if p.1 = k then some p.2 else assocGet rest k

/-- Association-list update with the semantics of JS `Map.set`: an existing
binding is overwritten in place (iteration order kept), a new key is appended
at the end. -/
def assocSet {α β : Type} [DecidableEq α] : List (α × β) → α → β → List (α × β)
  | [], k, v => [(k, v)]
  | p :: rest, k, v => if p.1 = k then (k, v) :: rest else p :: assocSet rest k v

/-- A JS `Uint8Array`, as the list of its byte values. -/
abbrev ByteList := List Nat

namespace Queue

/-- Item lifecycle states (`TxQueueItemStatus` in src/tx/tx-queue.ts). -/
inductive TxStatus where
  | pending
  | submitted
  | confirming
  | confirmed
  | failed
  | superseded
deriving DecidableEq

/-- Terminal statuses: exactly the three statuses the `supersede` closure
treats as final. -/
def TxStatus.isTerminal : TxStatus → Bool
  | .confirmed => true
  | .failed => true
  | .superseded => true
  | _ => false

/-- Conflict policies of the queue (`TxQueuePolicy` in the source). -/
inductive TxQueuePolicy where
  | waitForConfirm
  | reject
  | replaceHigherTick
deriving DecidableEq

/-- One queue item, restricted to a single source identity (items of distinct
sources never interact in the source: `activeBySource` and `itemsBySource` are
keyed by the identity).  `aborted` records whether the per-item
`AbortController` has fired; `resolvedWith` records the status snapshot the
`done` promise of the item was resolved with, `none` while it is unresolved. -/
structure QItem where
  id : Nat
  targetTick : Int
  status : TxStatus
  aborted : Bool
  resolvedWith : Option TxStatus
deriving DecidableEq

/-- Suspended continuations of the single-threaded runtime, for one source:
an enqueue call parked on `await existing.done`, a `#run` call parked on
`await input.submit(...)`, and a `#run` call parked on
`await active.confirm(...)`. -/
inductive QTask where
  | waiting (onId : Nat) (targetTick : Int)
  | runSubmit (id : Nat)
  | runConfirm (id : Nat)
deriving DecidableEq

/-- Queue state for one source identity: the append-only history list
(`itemsBySource`), the active slot (`activeBySource`), the suspended tasks,
and the id supply (`crypto.randomUUID()` abstracted to a counter). -/
structure QState where
  items : List QItem
  active : Option Nat
  tasks : List QTask
  nextId : Nat
deriving DecidableEq

/-- Queue state before any enqueue. -/
def initialState : QState := { items := [], active := none, tasks := [], nextId := 0 }

/-- Find the history item with a given id. -/
def lookupItem : List QItem → Nat → Option QItem
  | [], _ => none
  | it :: rest, id => if it.id = id then some it else lookupItem rest id

/-- Replace the item with the given id (the source mutates the single shared
item object). -/
def updateItem (items : List QItem) (id : Nat) (f : QItem → QItem) : List QItem :=
  items.map (fun it => if it.id = id then f it else it)

/-- Atomic tail of `enqueue` after the policy block, fused with the
synchronous prefix of the spawned `#run` up to its first suspension point
(`await input.submit(...)`): create the item as `pending`, store it in the
active slot, push it onto the history list, start the run. -/
def spawnItem (s : QState) (targetTick : Int) : QState :=
  { items := s.items ++
      [{ id := s.nextId, targetTick, status := .pending, aborted := false, resolvedWith := none }]
    active := some s.nextId
    tasks := s.tasks ++ [QTask.runSubmit s.nextId]
    nextId := s.nextId + 1 }

/-- Embedding of the `supersede` closure (src/tx/tx-queue.ts): if the item is
already terminal nothing happens; otherwise its status becomes `superseded`,
its abort controller fires, its promise resolves with the superseded snapshot,
and the active slot of the source is cleared. -/
def supersedeActive (s : QState) (j : Nat) : QState :=
  match lookupItem s.items j with
  | none => s
  | some it =>
    if it.status.isTerminal then s
    else
      { s with
        items := updateItem s.items j (fun k =>
          { k with status := .superseded, aborted := true, resolvedWith := some .superseded })
        active := none }

/-- Reasons an `enqueue` call throws a `TxQueueError` synchronously. -/
inductive TxQueueErr where
  | rejectedBusy
  | rejectedLowerTick (newTick activeTick : Int)
deriving DecidableEq

/-- Result of the synchronous part of an `enqueue` call: either the item was
created and its run started, or the call parked on the `done` promise of the
active item (`waitForConfirm`), or a `TxQueueError` was thrown with the queue
state untouched. -/
inductive EnqueueOutcome where
  | started (s : QState)
  | suspended (s : QState)
  | rejected (e : TxQueueErr)
deriving DecidableEq

/-- Embedding of the synchronous part of `TxQueue.enqueue`
(src/tx/tx-queue.ts): read the active slot once; with no active item, spawn
immediately.  Otherwise: under `waitForConfirm` park on `existing.done`; under
`reject` throw; under `replaceHigherTick` throw when the new target tick is
not strictly higher, else supersede the active item and spawn. -/
def enqueue (policy : TxQueuePolicy) (s : QState) (targetTick : Int) : EnqueueOutcome :=
  match s.active with
  | none => .started (spawnItem s targetTick)
  | some j =>
    match policy with
    | .waitForConfirm =>
      .suspended { s with tasks := s.tasks ++ [QTask.waiting j targetTick] }
    | .reject => .rejected .rejectedBusy
    | .replaceHigherTick =>
      match lookupItem s.items j with
      | none => .started (spawnItem s targetTick)
      | some it =>
        if targetTick ≤ it.targetTick then
          .rejected (.rejectedLowerTick targetTick it.targetTick)
        else .started (spawnItem (supersedeActive s j) targetTick)

/-- The `finally` block of `#run`: clear the active slot only when it still
references this item. -/
def finallyRelease (s : QState) (id : Nat) : QState :=
  if s.active = some id then { s with active := none } else s

/-- Scheduler events for the single-source queue subsystem.  Each event is
one atomic (synchronous, suspension-free) segment of the source, identified
by the task index it resumes. -/
inductive QEvent where
  | enqueueTx (targetTick : Int)
  | wake (taskIdx : Nat)
  | submitOk (taskIdx : Nat)
  | submitErr (taskIdx : Nat)
  | confirmOk (taskIdx : Nat)
  | confirmErr (taskIdx : Nat)
deriving DecidableEq

/-- Small-step semantics of the queue.  `wake i` resumes an enqueue parked on
`await existing.done` once that promise has resolved; exactly as in the
source, the resumed code creates its item and overwrites the active slot
WITHOUT re-reading it, so every parked enqueue eventually takes the slot.
`submitOk`/`confirmOk`/`submitErr`/`confirmErr` are the resumptions of `#run`
after its awaited submit/confirm call settles; the two status assignments
`submitted` and `confirming` happen inside the same synchronous segment of the
source, so `submitOk` lands the item directly on `confirming`.  Events whose
task index does not name a matching suspended task leave the state unchanged
(they correspond to no enabled transition). -/
def queueStep (policy : TxQueuePolicy) (s : QState) (e : QEvent) : QState :=
  match e with
  | .enqueueTx targetTick =>
    match enqueue policy s targetTick with
    | .started s1 => s1
    | .suspended s1 => s1
    | .rejected _ => s
  | .wake i =>
    match s.tasks.get? i with
    | some (.waiting onId targetTick) =>
      match lookupItem s.items onId with
      | some it =>
        if it.resolvedWith.isSome then
          spawnItem { s with tasks := s.tasks.eraseIdx i } targetTick
        else s
      | none => s
    | _ => s
  | .submitOk i =>
    match s.tasks.get? i with
    | some (.runSubmit id) =>
      match lookupItem s.items id with
      | some it =>
        if it.status = .superseded then
          finallyRelease { s with tasks := s.tasks.eraseIdx i } id
        else
          { s with
            items := updateItem s.items id (fun k => { k with status := .confirming })
            tasks := s.tasks.set i (.runConfirm id) }
      | none => s
    | _ => s
  | .submitErr i =>
    match s.tasks.get? i with
    | some (.runSubmit id) =>
      match lookupItem s.items id with
      | some it =>
        if it.status = .superseded then
          finallyRelease { s with tasks := s.tasks.eraseIdx i } id
        else
          finallyRelease
            { s with
              items := updateItem s.items id (fun k =>
                { k with status := .failed, resolvedWith := some .failed })
              tasks := s.tasks.eraseIdx i } id
      | none => s
    | _ => s
  | .confirmOk i =>
    match s.tasks.get? i with
    | some (.runConfirm id) =>
      match lookupItem s.items id with
      | some it =>
        if it.status = .superseded then
          finallyRelease { s with tasks := s.tasks.eraseIdx i } id
        else
          finallyRelease
            { s with
              items := updateItem s.items id (fun k =>
                { k with status := .confirmed, resolvedWith := some .confirmed })
              tasks := s.tasks.eraseIdx i } id
      | none => s
    | _ => s
  | .confirmErr i =>
    match s.tasks.get? i with
    | some (.runConfirm id) =>
      match lookupItem s.items id with
      | some it =>
        if it.status = .superseded then
          finallyRelease { s with tasks := s.tasks.eraseIdx i } id
        else
          finallyRelease
            { s with
              items := updateItem s.items id (fun k =>
                { k with status := .failed, resolvedWith := some .failed })
              tasks := s.tasks.eraseIdx i } id
      | none => s
    | _ => s

/-- Run a schedule of events from the empty queue. -/
def runEvents (policy : TxQueuePolicy) (events : List QEvent) : QState :=
  events.foldl (fun s e => queueStep policy s e) initialState

/-- Number of items of the source currently in an in-flight status
(`submitted` or `confirming`). -/
def inFlightCount (s : QState) : Nat :=
  (s.items.filter (fun it => it.status = .submitted ∨ it.status = .confirming)).length

end Queue

namespace Qbi

/-- Opaque domain of codec values (the source types them as `unknown`). -/
abbrev JsVal := Nat

/-- Entry kinds of an interface file. -/
inductive EntryKind where
  | function
  | procedure
deriving DecidableEq, BEq

/-- One interface entry (`QbiEntry` in src/qbi.ts). -/
structure QbiEntry where
  kind : EntryKind
  name : String
  inputType : Nat
  inputSize : Option Nat
  outputSize : Option Nat
deriving DecidableEq, BEq

/-- Contract header of an interface file. -/
structure QbiContract where
  name : String
  contractIndex : Option Nat
  contractPublicKeyHex : Option String
  contractId : Option String
deriving DecidableEq, BEq

/-- One interface file (`QbiFile` in src/qbi.ts). -/
structure QbiFile where
  contract : QbiContract
  entries : List QbiEntry
deriving DecidableEq, BEq

/-- The two indexes built by `createQbiRegistry` (JS `Map`s, modelled as
insertion-ordered association lists). -/
structure QbiRegistry where
  byName : List (String × QbiFile)
  byIndex : List (Nat × QbiFile)
deriving DecidableEq

/-- Loop body of `createQbiRegistry`: `Map.set` into `byName`
unconditionally and into `byIndex` when the file declares a numeric
`contractIndex`. -/
def qbiRegistryStep (reg : QbiRegistry) (file : QbiFile) : QbiRegistry :=
  { byName := assocSet reg.byName file.contract.name file
    byIndex :=
      match file.contract.contractIndex with
      | some i => assocSet reg.byIndex i file
      | none => reg.byIndex }

/-- Embedding of `createQbiRegistry` (src/qbi.ts): fold the loop body over
the provided files, starting from two empty maps.  The function is total: no
duplicate check of any kind is performed. -/
def createQbiRegistry (files : List QbiFile) : QbiRegistry :=
  files.foldl qbiRegistryStep { byName := [], byIndex := [] }

/-- A user-supplied codec: `encode`/`decode` may throw (the wrapper maps the
raw exception to a codec error). -/
structure QbiCodec where
  encode : QbiEntry → JsVal → Except String ByteList
  decode : QbiEntry → ByteList → Except String JsVal

/-- Codecs registered for one contract, keyed by entry name. -/
structure ContractCodecs where
  functions : List (String × QbiCodec)
  procedures : List (String × QbiCodec)

/-- Errors thrown by the interface helpers (the `QbiError` hierarchy plus
the `RangeError` of the size guard and the generic `Error`s of the identity
resolution). -/
inductive QbiQueryError where
  | entryNotFound (kind : EntryKind) (name : String)
  | contractIndexMissing
  | codecMissing
  | codecEncodeFailed
  | inputRequired
  | rangeError (expected got : Nat)
  | identityUnavailable
  | hexLengthError
  | pubkeyLengthError
deriving DecidableEq

/-- Embedding of the `findEntry` closure: linear scan of the entries of a
file for a matching kind and name. -/
def findQbiEntry (file : QbiFile) (kind : EntryKind) (name : String) : Option QbiEntry :=
  file.entries.find? (fun e => e.kind == kind && e.name == name)

/-- Embedding of the `resolveCodec` closure: an explicitly provided codec
wins, else the codec registered for that contract, kind and name, else none. -/
def resolveCodec (contractCodecs : Option ContractCodecs) (kind : EntryKind)
    (name : String) (provided : Option QbiCodec) : Option QbiCodec :=
  match provided with
  | some c => some c
  | none =>
    match contractCodecs with
    | none => none
    | some cc =>
      assocGet (match kind with | .function => cc.functions | .procedure => cc.procedures) name

/-- Call input of `query`/`queryValue` (`QbiQueryInput` in the source). -/
structure QbiQueryInput where
  inputBytes : Option ByteList
  inputValue : Option JsVal
  codec : Option QbiCodec
  expectedOutputSize : Option Nat
  retries : Option Nat
  retryDelayMs : Option Nat
  allowSizeMismatch : Bool

/-- Embedding of the `getInputBytes` closure: explicit bytes win; otherwise a
present `inputValue` is encoded through the codec (missing codec and encode
failures are codec errors); otherwise the call is rejected. -/
def getInputBytes (entry : QbiEntry) (input : QbiQueryInput) (codec : Option QbiCodec) :
    Except QbiQueryError ByteList :=
  match input.inputBytes with
  | some b => .ok b
  | none =>
    match input.inputValue with
    | some v =>
      match codec with
      | none => .error .codecMissing
      | some c =>
        match c.encode entry v with
        | .ok b => .ok b
        | .error _ => .error .codecEncodeFailed
    | none => .error .inputRequired

/-- The argument record `query` hands to the contract helper
`contracts.queryRaw`.  The embedding of `query` returns this record instead
of performing the call, so an `Except.error` result is exactly a run of the
source in which the helper (and hence the RPC transport) is never invoked. -/
structure QueryRawCall where
  contractIndex : Nat
  inputType : Nat
  inputBytes : ByteList
  expectedOutputSize : Option Nat
  retries : Option Nat
  retryDelayMs : Option Nat
deriving DecidableEq

/-- Embedding of the `query` method of a contract handle (src/qbi.ts), up to
its delegation to `contracts.queryRaw`: resolve the function entry, require a
contract index, resolve the codec, materialize the input bytes, apply the
input-size guard (escapable with `allowSizeMismatch`), then delegate with
`expectedOutputSize` defaulting to the declared `outputSize`. -/
def query (file : QbiFile) (contractCodecs : Option ContractCodecs) (name : String)
    (input : QbiQueryInput) : Except QbiQueryError QueryRawCall :=
  match findQbiEntry file .function name with
  | none => .error (.entryNotFound .function name)
  | some entry =>
    match file.contract.contractIndex with
    | none => .error .contractIndexMissing
    | some cidx =>
      let codec := resolveCodec contractCodecs .function name input.codec
      match getInputBytes entry input codec with
      | .error e => .error e
      | .ok inputBytes =>
        let call : QueryRawCall :=
          { contractIndex := cidx
            inputType := entry.inputType
            inputBytes := inputBytes
            expectedOutputSize := input.expectedOutputSize <|> entry.outputSize
            retries := input.retries
            retryDelayMs := input.retryDelayMs }
        match entry.inputSize with
        | some n =>
          if n ≠ inputBytes.length ∧ input.allowSizeMismatch = false then
            .error (.rangeError n inputBytes.length)
          else .ok call
        | none => .ok call

/-- One hex digit, or `none` for a character `Number.parseInt` cannot use. -/
def hexDigit? (c : Char) : Option Nat :=
  if '0' ≤ c ∧ c ≤ '9' then some (c.toNat - 48)
  else if 'a' ≤ c ∧ c ≤ 'f' then some (c.toNat - 87)
  else if 'A' ≤ c ∧ c ≤ 'F' then some (c.toNat - 55)
  else none

/-- `Number.parseInt(pair, 16)` followed by a `Uint8Array` store: `parseInt`
parses the longest valid leading digit run, and a NaN result is stored as 0. -/
def parseHexPair (c1 c2 : Char) : Nat :=
  match hexDigit? c1 with
  | none => 0
  | some d1 =>
    match hexDigit? c2 with
    | none => d1
    | some d2 => 16 * d1 + d2

/-- Digit pairs of the cleaned hex string, one byte each. -/
def hexPairsToBytes : List Char → ByteList
  | [] => []
  | [_] => []
  | c1 :: c2 :: rest => parseHexPair c1 c2 :: hexPairsToBytes rest

/-- Embedding of `hexToBytes` (src/qbi.ts): strip a 0x/0X marker, reject an
odd length, then decode digit pairs. -/
def hexToBytes (hex : String) : Except QbiQueryError ByteList :=
  let cleaned := if hex.startsWith "0x" || hex.startsWith "0X" then hex.drop 2 else hex
  if cleaned.length % 2 ≠ 0 then .error .hexLengthError
  else .ok (hexPairsToBytes cleaned.toList)

/-- Embedding of the `getContractIdentity` closure: `contractId` wins; else
`contractPublicKeyHex` is decoded (must be exactly 32 bytes) and converted
through the external `identityFromPublicKey` collaborator, passed in as
`idFromPk`; else the identity is unavailable. -/
def getContractIdentity (idFromPk : ByteList → String) (c : QbiContract) :
    Except QbiQueryError String :=
  match c.contractId with
  | some cid => .ok cid
  | none =>
    match c.contractPublicKeyHex with
    | some hex =>
      match hexToBytes hex with
      | .error e => .error e
      | .ok pk => if pk.length ≠ 32 then .error .pubkeyLengthError else .ok (idFromPk pk)
    | none => .error .identityUnavailable

/-- Call input of the procedure-transaction methods (`QbiProcedureTxInput`). -/
structure QbiProcedureTxInput where
  name : String
  amount : Option Int
  targetTick : Option Int
  inputBytes : Option ByteList
  inputValue : Option JsVal
  codec : Option QbiCodec

/-- The argument record the four procedure-transaction methods hand to the
transaction builder (`transactions.buildSigned` / `.send` / `.sendAndConfirm`
/ `.sendAndConfirmWithReceipt`).  As with `QueryRawCall`, an `Except.error`
result is a run in which the builder is never invoked. -/
structure BuildSignedCall where
  toIdentity : String
  amount : Int
  targetTick : Option Int
  inputType : Nat
  inputBytes : ByteList
deriving DecidableEq

/-- Shared body of `buildProcedureTransaction`, `sendProcedure`,
`sendProcedureAndConfirm` and `sendProcedureAndConfirmWithReceipt`
(src/qbi.ts duplicates this body verbatim in each of the four methods; they
differ only in which `transactions` method receives the resulting record):
resolve the procedure entry, resolve the codec, materialize the input bytes
from `{inputBytes, inputValue}`, resolve the contract identity, and delegate.
NOTE: none of the four performs an input-size check. -/
def procedureTxCall (idFromPk : ByteList → String) (file : QbiFile)
    (contractCodecs : Option ContractCodecs) (input : QbiProcedureTxInput) :
    Except QbiQueryError BuildSignedCall :=
  match findQbiEntry file .procedure input.name with
  | none => .error (.entryNotFound .procedure input.name)
  | some entry =>
    let codec := resolveCodec contractCodecs .procedure input.name input.codec
    match getInputBytes entry
        { inputBytes := input.inputBytes, inputValue := input.inputValue, codec := none,
          expectedOutputSize := none, retries := none, retryDelayMs := none,
          allowSizeMismatch := false } codec with
    | .error e => .error e
    | .ok bytes =>
      match getContractIdentity idFromPk file.contract with
      | .error e => .error e
      | .ok toIdentity =>
        .ok { toIdentity := toIdentity
              amount := input.amount.getD 0
              targetTick := input.targetTick
              inputType := entry.inputType
              inputBytes := bytes }

/-- Embedding of `buildProcedureTransaction`: materializes and delegates to
`transactions.buildSigned`. -/
def buildProcedureTransaction (idFromPk : ByteList → String) (file : QbiFile)
    (contractCodecs : Option ContractCodecs) (input : QbiProcedureTxInput) :
    Except QbiQueryError BuildSignedCall :=
  procedureTxCall idFromPk file contractCodecs input

/-- Embedding of `sendProcedure`: materializes and delegates to
`transactions.send`. -/
def sendProcedure (idFromPk : ByteList → String) (file : QbiFile)
    (contractCodecs : Option ContractCodecs) (input : QbiProcedureTxInput) :
    Except QbiQueryError BuildSignedCall :=
  procedureTxCall idFromPk file contractCodecs input

/-- Embedding of `sendProcedureAndConfirm`: materializes and delegates to
`transactions.sendAndConfirm`. -/
def sendProcedureAndConfirm (idFromPk : ByteList → String) (file : QbiFile)
    (contractCodecs : Option ContractCodecs) (input : QbiProcedureTxInput) :
    Except QbiQueryError BuildSignedCall :=
  procedureTxCall idFromPk file contractCodecs input

/-- Embedding of `sendProcedureAndConfirmWithReceipt`: materializes and
delegates to `transactions.sendAndConfirmWithReceipt`. -/
def sendProcedureAndConfirmWithReceipt (idFromPk : ByteList → String) (file : QbiFile)
    (contractCodecs : Option ContractCodecs) (input : QbiProcedureTxInput) :
    Except QbiQueryError BuildSignedCall :=
  procedureTxCall idFromPk file contractCodecs input

/-- The record `prepareProcedure` returns. -/
structure PreparedProcedure where
  contractIndex : Nat
  inputType : Nat
  inputBytes : ByteList
deriving DecidableEq

/-- Embedding of `prepareProcedure` (src/qbi.ts): resolve the procedure
entry, require a contract index, and apply the input-size guard with no
`allowSizeMismatch` escape. -/
def prepareProcedure (file : QbiFile) (name : String) (inputBytes : ByteList) :
    Except QbiQueryError PreparedProcedure :=
  match findQbiEntry file .procedure name with
  | none => .error (.entryNotFound .procedure name)
  | some entry =>
    match file.contract.contractIndex with
    | none => .error .contractIndexMissing
    | some cidx =>
      match entry.inputSize with
      | some n =>
        if n ≠ inputBytes.length then .error (.rangeError n inputBytes.length)
        else .ok { contractIndex := cidx, inputType := entry.inputType, inputBytes := inputBytes }
      | none => .ok { contractIndex := cidx, inputType := entry.inputType, inputBytes := inputBytes }

/-- Last file of the list carrying a given contract name (the binding a
sequence of `Map.set` calls leaves behind). -/
def lastFileNamed (files : List QbiFile) (name : String) : Option QbiFile :=
  files.foldl (fun acc f => if f.contract.name = name then some f else acc) none

/-- Last file of the list declaring a given contract index. -/
def lastFileIndexed (files : List QbiFile) (idx : Nat) : Option QbiFile :=
  files.foldl (fun acc f => if f.contract.contractIndex = some idx then some f else acc) none

end Qbi

namespace Contracts

/-- The guard of the retry loop in `queryRaw` (src/contracts.ts): the
response is short when `expectedOutputSize` is a finite positive number and
the response byte length is below it.  `Option Int` models
number-or-undefined (NaN and infinities, which the `Number.isFinite` check
also rejects, have no integer counterpart). -/
def isShortResponse (expectedOutputSize : Option Int) (len : Nat) : Bool :=
  match expectedOutputSize with
  | some e => decide (0 < e) && decide ((len : Int) < e)
  | none => false

/-- Retry loop of `queryRaw` (src/contracts.ts), for a caller that passes no
abort signal, over the trace of successive `querySmartContract` response
payloads: bump the attempt counter, issue the call, return unless the
response is short and attempts remain, else sleep and go again.  `none`
means the finite trace ended while the loop would have issued another call. -/
def queryRawLoop (retries : Nat) (expectedOutputSize : Option Int) :
    Nat → List ByteList → Option (ByteList × Nat)
  | _, [] => none
  | attempts, res :: rest =>
    let attempts1 := attempts + 1
    if !isShortResponse expectedOutputSize res.length || attempts1 > retries then
      some (res, attempts1)
    else queryRawLoop retries expectedOutputSize attempts1 rest

/-- Embedding of `queryRaw` (src/contracts.ts): the attempt counter starts
at 0 and is incremented before each call, so the first returned value is 1.
`retries` is the resolved budget (`input.retries ?? defaultRetries`). -/
def queryRaw (retries : Nat) (expectedOutputSize : Option Int)
    (responses : List ByteList) : Option (ByteList × Nat) :=
  queryRawLoop retries expectedOutputSize 0 responses

end Contracts

namespace LogStream

/-- One declared subscription (`LogSubscription` in src/bob/log-stream.ts). -/
structure LogSubscription where
  scIndex : Nat
  logType : Nat
  lastTick : Option Nat
  lastLogId : Option Nat
deriving DecidableEq

/-- A cursor value (`LogCursor`). -/
structure LogCursor where
  lastTick : Option Nat
  lastLogId : Option Nat
deriving DecidableEq

/-- Embedding of `cursorKey`: the string key of the cursor store. -/
def cursorKey (scIndex logType : Nat) : String :=
  toString scIndex ++ ":" ++ toString logType

/-- One outbound JSON frame, with `none` for every property the source omits
from the message object. -/
structure OutFrame where
  action : String
  scIndex : Option Nat
  logType : Option Nat
  lastTick : Option Nat
  lastLogId : Option Nat
  subscriptions : Option (List (Nat × Nat))
deriving DecidableEq

/-- Embedding of the `subscribe` closure: one frame per subscription,
including `lastLogId` when defined and `lastTick` only when defined AND
`lastLogId` is not. -/
def subscribeFrame (sub : LogSubscription) : OutFrame :=
  { action := "subscribe"
    scIndex := some sub.scIndex
    logType := some sub.logType
    lastLogId := sub.lastLogId
    lastTick := if sub.lastLogId = none then sub.lastTick else none
    subscriptions := none }

/-- Embedding of the `subscribeMany` closure: one batched frame with the
(scIndex, logType) pairs and the optional top-level cursor, `lastTick` again
suppressed when `lastLogId` is present. -/
def subscribeManyFrame (subs : List LogSubscription) (cursor : LogCursor) : OutFrame :=
  { action := "subscribe"
    scIndex := none
    logType := none
    lastLogId := cursor.lastLogId
    lastTick := if cursor.lastLogId = none then cursor.lastTick else none
    subscriptions := some (subs.map (fun s => (s.scIndex, s.logType))) }

/-- Embedding of the `getCursorFor` closure: an explicit `lastLogId` or
`lastTick` on the subscription wins; else the cursor store is consulted under
the subscription key.  A missing cursor store behaves like an empty one. -/
def getCursorFor (store : List (String × LogCursor)) (sub : LogSubscription) :
    Option LogCursor :=
  if sub.lastLogId.isSome || sub.lastTick.isSome then
    some { lastTick := sub.lastTick, lastLogId := sub.lastLogId }
  else assocGet store (cursorKey sub.scIndex sub.logType)

/-- The object spread `{...s, ...cursor}` of `bootstrapSubscriptions`.  In
the explicit-cursor branch the cursor carries exactly the fields of the
subscription, and in the store branch the subscription fields are undefined
(that branch is only reached when both are), so overwriting both fields with
the cursor fields is exact. -/
def mergeCursor (sub : LogSubscription) (cursor : Option LogCursor) : LogSubscription :=
  match cursor with
  | none => sub
  | some c => { sub with lastTick := c.lastTick, lastLogId := c.lastLogId }

/-- Embedding of the `bootstrapSubscriptions` closure (src/bob/log-stream.ts):
resolve a cursor for every declared subscription; if none of them has one and
there is more than one subscription, send a single batched subscribe carrying
the config-level cursor; otherwise send one subscribe per subscription.  The
returned list is the sequence of outbound frames the bootstrap sends. -/
def bootstrapSubscriptions (store : List (String × LogCursor))
    (cfgLastTick cfgLastLogId : Option Nat) (subs : List LogSubscription) :
    List OutFrame :=
  let withCursor := subs.map (fun s => mergeCursor s (getCursorFor store s))
  let hasPerCursor := withCursor.any (fun s => s.lastLogId.isSome || s.lastTick.isSome)
  if !hasPerCursor && withCursor.length > 1 then
    [subscribeManyFrame withCursor { lastTick := cfgLastTick, lastLogId := cfgLastLogId }]
  else withCursor.map subscribeFrame

end LogStream

namespace Vault

/-- Symbolic AES-256-GCM key (the scrypt-derived key, identified by the
passphrase/KDF-parameter pair that produced it). -/
abbrev VKey := Nat

/-- Symbolic authenticated ciphertext: decryption succeeds exactly under the
encrypting key and returns the original plaintext; under any other key the
GCM tag check fails and `decipher.final()` throws. -/
structure EncBlob where
  key : VKey
  seed : String
deriving DecidableEq

/-- Embedding of `encryptSeed` (src/vault.ts) in the symbolic crypto model. -/
def encryptSeed (seed : String) (key : VKey) : EncBlob :=
  { key := key, seed := seed }

/-- Vault errors relevant to the rotation claim. -/
inductive VaultErr where
  | decryptFailed
  | invalidPassphrase
  | entryNotFound
deriving DecidableEq

/-- Embedding of `decryptSeed` (src/vault.ts) in the symbolic crypto model. -/
def decryptSeed (blob : EncBlob) (key : VKey) : Except VaultErr String :=
  if blob.key = key then .ok blob.seed else .error .decryptFailed

/-- One vault entry (`VaultEntry`), with its symbolic ciphertext. -/
structure VEntry where
  name : String
  identity : String
  seedIndex : Nat
  createdAt : Nat
  updatedAt : Nat
  encrypted : EncBlob
deriving DecidableEq

/-- State of an open vault handle: the in-memory entries `Map` (in insertion
order), the derived key held by the handle, and the entry list plus derived
key corresponding to the on-disk vault file (the KDF parameters of the file
are abstracted by the key they derive for the current passphrase). -/
structure VaultState where
  entries : List VEntry
  key : VKey
  fileEntries : List VEntry
  fileKey : VKey
deriving DecidableEq

/-- Exact-name pass of the `findEntry` closure. -/
def findEntryByName : List VEntry → String → Option VEntry
  | [], _ => none
  | e :: rest, ref => if e.name = ref then some e else findEntryByName rest ref

/-- Identity-scan pass of the `findEntry` closure. -/
def findEntryByIdentity : List VEntry → String → Option VEntry
  | [], _ => none
  | e :: rest, ref => if e.identity = ref then some e else findEntryByIdentity rest ref

/-- Embedding of the `findEntry` closure (src/vault.ts): exact name match
first, then a scan for an identity match. -/
def findVaultEntry (entries : List VEntry) (ref : String) : Option VEntry :=
  match findEntryByName entries ref with
  | some e => some e
  | none => findEntryByIdentity entries ref

/-- Embedding of `getSeed` (src/vault.ts): resolve the entry, decrypt with
the key of the handle, and wrap any decryption failure into
`VaultInvalidPassphraseError`. -/
def getSeed (s : VaultState) (ref : String) : Except VaultErr String :=
  match findVaultEntry s.entries ref with
  | none => .error .entryNotFound
  | some e =>
    match decryptSeed e.encrypted s.key with
    | .ok seed => .ok seed
    | .error _ => .error .invalidPassphrase

/-- The `for (const entry of entries.values())` loop of `rotatePassphrase`:
each successfully decrypted entry is immediately written back into the shared
in-memory `Map`, re-encrypted under the next key.  On a decryption failure the
exception propagates; the error branch carries the entries `Map` as the loop
leaves it: already-processed entries re-encrypted, the rest untouched. -/
def rotateLoop (key nextKey : VKey) (now : Nat) :
    List VEntry → List VEntry → Except (List VEntry) (List VEntry)
  | acc, [] => .ok acc.reverse
  | acc, e :: rest =>
    match decryptSeed e.encrypted key with
    | .ok seed =>
      rotateLoop key nextKey now
        ({ e with encrypted := encryptSeed seed nextKey, updatedAt := now } :: acc) rest
    | .error _ => .error (acc.reverse ++ e :: rest)

/-- Embedding of `rotatePassphrase` (src/vault.ts): derive the next key from
the new passphrase and fresh KDF parameters, rotate every entry in place,
and only after the whole loop replace the file header, switch the handle to
the next key and write the vault file.  When the loop throws, the handle
keeps the OLD key and the on-disk file is NOT rewritten, but the in-memory
entries keep whatever the loop already overwrote. -/
def rotatePassphrase (s : VaultState) (nextKey : VKey) (now : Nat) :
    VaultState × Option VaultErr :=
  match rotateLoop s.key nextKey now [] s.entries with
  | .ok rotated =>
    ({ entries := rotated, key := nextKey, fileEntries := rotated, fileKey := nextKey }, none)
  | .error partiallyRotated =>
    ({ s with entries := partiallyRotated }, some .decryptFailed)

end Vault

open Rpc Confirm Queue Qbi Contracts LogStream Vault

theorem confirmLoop_flags_true_ne_timeout (start timeoutMs : Nat) (targetTick : Int) :
    ∀ steps : List PollStep,
      confirmLoop start timeoutMs targetTick steps true true ≠ .timeoutError := by
  intro steps
  induction steps with
  | nil => simp [confirmLoop]
  | cons step rest ih =>
    simp only [confirmLoop]
    by_cases h1 : timeoutMs < step.now - start
    · simp [h1]
    · by_cases h2 : step.lastProcessedTick < targetTick
      · simpa [h1, h2] using ih
      · cases hl : step.lookup <;> simp [h1, h2, ih]

/-- Claim C1: for every run of the confirmation engine
(`waitForConfirmation` / `waitForConfirmedTransaction`) that terminates
because the elapsed time exceeds `timeoutMs`, the resulting error is
`TxNotFoundError` if and only if the loop previously observed
`lastProcessedTick >= targetTick` together with at least one subsequent 404
from `getTransactionByHash`; in every other timeout case the error is
`TxConfirmationTimeoutError`. -/
theorem claim_C1_timeout_error_classification
    (start timeoutMs : Nat) (targetTick : Int) (steps : List PollStep)
    (h : waitForConfirmedTransaction start timeoutMs targetTick steps = .txNotFoundError ∨
         waitForConfirmedTransaction start timeoutMs targetTick steps = .timeoutError) :
    (waitForConfirmedTransaction start timeoutMs targetTick steps = .txNotFoundError ↔
      observedNotFoundAfterTarget start timeoutMs targetTick steps = true) := by
  induction steps with
  | nil =>
    simp [waitForConfirmedTransaction, confirmLoop] at h
  | cons step rest ih =>
    simp only [waitForConfirmedTransaction, confirmLoop, observedNotFoundAfterTarget] at h ⊢
    by_cases h1 : timeoutMs < step.now - start
    · simp [h1] at h ⊢
    · by_cases h2 : step.lastProcessedTick < targetTick
      · simp only [if_neg h1, if_pos h2] at h ⊢
        exact ih h
      · simp only [if_neg h1, if_neg h2] at h ⊢
        cases hl : step.lookup with
        | record tx => simp [hl] at h
        | notFound404 =>
          simp only [hl] at h ⊢
          rcases h with h | h
          · simp [h]
          · exact absurd h (confirmLoop_flags_true_ne_timeout start timeoutMs targetTick rest)
        | rpcFailure => simp [hl] at h

/-- Witness for claim C1: the not-found scenario of the specification
(target tick reached at once, `getTransactionByHash` always 404, 20 ms
timeout) terminates by timeout and is classified as the not-found error. -/
theorem claim_C1_timeout_error_classification_witness :
    (waitForConfirmedTransaction 0 20 10
        [⟨0, 10, .notFound404⟩, ⟨25, 10, .notFound404⟩] = .txNotFoundError ↔
      observedNotFoundAfterTarget 0 20 10
        [⟨0, 10, .notFound404⟩, ⟨25, 10, .notFound404⟩] = true) :=
  claim_C1_timeout_error_classification 0 20 10
    [⟨0, 10, .notFound404⟩, ⟨25, 10, .notFound404⟩] (Or.inl (by decide))

/-- Claim C2 (code bug): the per-source serialization invariant fails.  Under
the default `waitForConfirm` policy, three `enqueue` calls arrive for the same
source; the second and third both park on the `done` promise of the first
item.  When that item completes, BOTH parked enqueues resume, and each
creates its item and takes the active slot without re-reading it (the source
has no re-check after `await existing.done`).  After both submits settle, the
source has two distinct queue items simultaneously in status `confirming`,
refuting the at-most-one-in-flight invariant the claim states. -/
theorem claim_C2_two_items_in_flight :
    inFlightCount (runEvents .waitForConfirm
      [.enqueueTx 10, .enqueueTx 11, .enqueueTx 12, .submitOk 0, .confirmOk 0,
       .wake 0, .submitOk 1, .wake 0, .submitOk 1]) = 2 ∧
    (lookupItem (runEvents .waitForConfirm
      [.enqueueTx 10, .enqueueTx 11, .enqueueTx 12, .submitOk 0, .confirmOk 0,
       .wake 0, .submitOk 1, .wake 0, .submitOk 1]).items 1).map
        (fun it => it.status) = some .confirming ∧
    (lookupItem (runEvents .waitForConfirm
      [.enqueueTx 10, .enqueueTx 11, .enqueueTx 12, .submitOk 0, .confirmOk 0,
       .wake 0, .submitOk 1, .wake 0, .submitOk 1]).items 2).map
        (fun it => it.status) = some .confirming := by
  decide

theorem lookupItem_mem {items : List QItem} {j : Nat} {it : QItem}
    (h : lookupItem items j = some it) : it ∈ items ∧ it.id = j := by
  induction items with
  | nil => simp [lookupItem] at h
  | cons a rest ih =>
    simp only [lookupItem] at h
    by_cases ha : a.id = j
    · rw [if_pos ha] at h
      injection h with h
      subst h
      exact ⟨List.mem_cons_self _ _, ha⟩
    · rw [if_neg ha] at h
      obtain ⟨hm, hid⟩ := ih h
      exact ⟨List.mem_cons_of_mem _ hm, hid⟩

/-- Claim C3: under the `replaceHigherTick` policy, an enqueue that finds an
active (non-terminal) item supersedes it exactly when the new target tick is
strictly higher: the active item moves to terminal status `superseded`, its
abort controller fires, its promise resolves with the superseded snapshot, and
the new item (created `pending`) takes the active slot.  When the new target
tick is not strictly higher, the enqueue throws a `TxQueueError` and the queue
state — in particular the active item — is unchanged. -/
theorem claim_C3_replaceHigherTick_supersession
    (s : QState) (j : Nat) (it : QItem) (newTick : Int)
    (hact : s.active = some j)
    (hit : lookupItem s.items j = some it)
    (hterm : it.status.isTerminal = false) :
    (newTick ≤ it.targetTick →
      enqueue .replaceHigherTick s newTick =
          .rejected (.rejectedLowerTick newTick it.targetTick) ∧
        queueStep .replaceHigherTick s (.enqueueTx newTick) = s) ∧
    (it.targetTick < newTick →
      ∃ s1, enqueue .replaceHigherTick s newTick = .started s1 ∧
        ({ it with
            status := .superseded
            aborted := true
            resolvedWith := some .superseded } : QItem) ∈ s1.items ∧
        s1.active = some s.nextId ∧
        ({ id := s.nextId
           targetTick := newTick
           status := .pending
           aborted := false
           resolvedWith := none } : QItem) ∈ s1.items) := by
  constructor
  · intro hle
    constructor
    · simp [enqueue, hact, hit, if_pos hle]
    · simp [queueStep, enqueue, hact, hit, if_pos hle]
  · intro hlt
    have hnle : ¬ newTick ≤ it.targetTick := not_le.mpr hlt
    obtain ⟨hmem, hid⟩ := lookupItem_mem hit
    refine ⟨spawnItem (supersedeActive s j) newTick, ?_, ?_, ?_, ?_⟩
    · simp [enqueue, hact, hit, hnle]
    · simp only [spawnItem, supersedeActive, hit, hterm, Bool.false_eq_true, if_false]
      apply List.mem_append_left
      unfold updateItem
      have heq : ({ it with
          status := .superseded
          aborted := true
          resolvedWith := some .superseded } : QItem) =
          (fun k => if k.id = j then
            { k with
              status := .superseded
              aborted := true
              resolvedWith := some .superseded } else k) it := by
        simp [hid]
      rw [heq]
      exact List.mem_map_of_mem _ hmem
    · simp [spawnItem, supersedeActive, hit, hterm]
    · simp only [spawnItem, supersedeActive, hit, hterm, Bool.false_eq_true, if_false]
      apply List.mem_append_right
      simp

/-- Witness for claim C3: a queue whose single enqueue produced an active
item with target tick 10; an enqueue at tick 9 is rejected with the state
untouched, an enqueue at tick 11 supersedes the active item and installs a
fresh pending item. -/
theorem claim_C3_replaceHigherTick_supersession_witness :
    (enqueue .replaceHigherTick (runEvents .replaceHigherTick [.enqueueTx 10]) 9 =
        .rejected (.rejectedLowerTick 9 10) ∧
      queueStep .replaceHigherTick (runEvents .replaceHigherTick [.enqueueTx 10])
          (.enqueueTx 9) =
        runEvents .replaceHigherTick [.enqueueTx 10]) ∧
    (∃ s1, enqueue .replaceHigherTick (runEvents .replaceHigherTick [.enqueueTx 10]) 11 =
        .started s1 ∧
      ({ id := 0
         targetTick := 10
         status := .superseded
         aborted := true
         resolvedWith := some .superseded } : QItem) ∈ s1.items ∧
      s1.active = some 1 ∧
      ({ id := 1
         targetTick := 11
         status := .pending
         aborted := false
         resolvedWith := none } : QItem) ∈ s1.items) :=
  ⟨(claim_C3_replaceHigherTick_supersession (runEvents .replaceHigherTick [.enqueueTx 10])
      0 { id := 0, targetTick := 10, status := .pending, aborted := false, resolvedWith := none }
      9 (by decide) (by decide) (by decide)).1 (by decide),
    (claim_C3_replaceHigherTick_supersession (runEvents .replaceHigherTick [.enqueueTx 10])
      0 { id := 0, targetTick := 10, status := .pending, aborted := false, resolvedWith := none }
      11 (by decide) (by decide) (by decide)).2 (by decide)⟩

/-- Claim C4: for any interface function entry with declared `inputSize = n`,
a `query` whose materialized input bytes do not have length `n` and whose
`allowSizeMismatch` flag is not set fails with a range error, and the
contract-query helper is never invoked (the embedding returns the
`contracts.queryRaw` argument record on success, so an error result is a run
that performs no RPC call). -/
theorem claim_C4_query_size_guard
    (file : QbiFile) (contractCodecs : Option ContractCodecs) (name : String)
    (input : QbiQueryInput) (entry : QbiEntry) (cidx n : Nat) (bytes : ByteList)
    (hentry : findQbiEntry file .function name = some entry)
    (hidx : file.contract.contractIndex = some cidx)
    (hbytes : getInputBytes entry input
        (resolveCodec contractCodecs .function name input.codec) = .ok bytes)
    (hsize : entry.inputSize = some n)
    (hlen : bytes.length ≠ n)
    (hallow : input.allowSizeMismatch = false) :
    query file contractCodecs name input = .error (.rangeError n bytes.length) := by
  have hcond : n ≠ bytes.length ∧ input.allowSizeMismatch = false :=
    ⟨fun he => hlen he.symm, hallow⟩
  simp only [query, hentry, hidx, hbytes, hsize]
  rw [if_pos hcond]

/-- Witness for claim C4: a function entry declaring `inputSize = 2` queried
with three explicit input bytes and no `allowSizeMismatch` fails with the
range error. -/
theorem claim_C4_query_size_guard_witness :
    query
      { contract := { name := "QX", contractIndex := some 1,
                      contractPublicKeyHex := none, contractId := none }
        entries := [{ kind := .function, name := "Fees", inputType := 1,
                      inputSize := some 2, outputSize := some 16 }] }
      none "Fees"
      { inputBytes := some [9, 9, 9], inputValue := none, codec := none,
        expectedOutputSize := none, retries := none, retryDelayMs := none,
        allowSizeMismatch := false } =
      .error (.rangeError 2 3) :=
  claim_C4_query_size_guard _ none "Fees" _
    { kind := .function, name := "Fees", inputType := 1,
      inputSize := some 2, outputSize := some 16 }
    1 2 [9, 9, 9] (by decide) (by decide) rfl (by decide) (by decide) rfl

/-- Counterexample to claim C5: a procedure entry declares `inputSize = 4`,
yet `buildProcedureTransaction` with a single input byte succeeds and
delegates to the transaction builder instead of failing with a range error.
The same body is shared by `sendProcedure`, `sendProcedureAndConfirm` and
`sendProcedureAndConfirmWithReceipt`. -/
theorem claim_C5_counterexample :
    buildProcedureTransaction (fun _ => "")
      { contract := { name := "QX", contractIndex := some 1,
                      contractPublicKeyHex := none, contractId := some "CIDENTITY" }
        entries := [{ kind := .procedure, name := "DoThing", inputType := 2,
                      inputSize := some 4, outputSize := none }] }
      none
      { name := "DoThing", amount := none, targetTick := none,
        inputBytes := some [1], inputValue := none, codec := none } =
      .ok { toIdentity := "CIDENTITY", amount := 0, targetTick := none,
            inputType := 2, inputBytes := [1] } := rfl

/-- Claim C5 as amended: only `prepareProcedure` validates the declared
procedure input size (with no `allowSizeMismatch` escape); the four
procedure-transaction methods `buildProcedureTransaction`, `sendProcedure`,
`sendProcedureAndConfirm` and `sendProcedureAndConfirmWithReceipt` materialize
the input bytes and delegate to the transaction builder without any size
validation. -/
theorem claim_C5_procedure_size_validation
    (file : QbiFile) :
    (∀ (name : String) (bytes : ByteList) (entry : QbiEntry) (cidx n : Nat),
      findQbiEntry file .procedure name = some entry →
      file.contract.contractIndex = some cidx →
      entry.inputSize = some n →
      n ≠ bytes.length →
      prepareProcedure file name bytes = .error (.rangeError n bytes.length)) ∧
    (∀ (idFromPk : ByteList → String) (contractCodecs : Option ContractCodecs)
        (input : QbiProcedureTxInput) (entry : QbiEntry) (bytes : ByteList) (tid : String),
      findQbiEntry file .procedure input.name = some entry →
      getInputBytes entry
          { inputBytes := input.inputBytes, inputValue := input.inputValue, codec := none,
            expectedOutputSize := none, retries := none, retryDelayMs := none,
            allowSizeMismatch := false }
          (resolveCodec contractCodecs .procedure input.name input.codec) = .ok bytes →
      getContractIdentity idFromPk file.contract = .ok tid →
      buildProcedureTransaction idFromPk file contractCodecs input =
          .ok { toIdentity := tid, amount := input.amount.getD 0,
                targetTick := input.targetTick, inputType := entry.inputType,
                inputBytes := bytes } ∧
        sendProcedure idFromPk file contractCodecs input =
          .ok { toIdentity := tid, amount := input.amount.getD 0,
                targetTick := input.targetTick, inputType := entry.inputType,
                inputBytes := bytes } ∧
        sendProcedureAndConfirm idFromPk file contractCodecs input =
          .ok { toIdentity := tid, amount := input.amount.getD 0,
                targetTick := input.targetTick, inputType := entry.inputType,
                inputBytes := bytes } ∧
        sendProcedureAndConfirmWithReceipt idFromPk file contractCodecs input =
          .ok { toIdentity := tid, amount := input.amount.getD 0,
                targetTick := input.targetTick, inputType := entry.inputType,
                inputBytes := bytes }) := by
  constructor
  · intro name bytes entry cidx n hentry hidx hsize hlen
    simp only [prepareProcedure, hentry, hidx, hsize]
    rw [if_pos hlen]
  · intro idFromPk contractCodecs input entry bytes tid hentry hbytes hid
    refine ⟨?_, ?_, ?_, ?_⟩ <;>
      simp only [buildProcedureTransaction, sendProcedure, sendProcedureAndConfirm,
        sendProcedureAndConfirmWithReceipt, procedureTxCall, hentry, hbytes, hid]

/-- Witness for claim C5: against the same interface file,
`prepareProcedure` rejects a one-byte input for the size-4 procedure, while
all four transaction methods accept it and delegate. -/
theorem claim_C5_procedure_size_validation_witness :
    (prepareProcedure
        { contract := { name := "QX", contractIndex := some 1,
                        contractPublicKeyHex := none, contractId := some "CIDENTITY" }
          entries := [{ kind := .procedure, name := "DoThing", inputType := 2,
                        inputSize := some 4, outputSize := none }] }
        "DoThing" [1] = .error (.rangeError 4 1)) ∧
    (sendProcedure (fun _ => "")
        { contract := { name := "QX", contractIndex := some 1,
                        contractPublicKeyHex := none, contractId := some "CIDENTITY" }
          entries := [{ kind := .procedure, name := "DoThing", inputType := 2,
                        inputSize := some 4, outputSize := none }] }
        none
        { name := "DoThing", amount := none, targetTick := none,
          inputBytes := some [1], inputValue := none, codec := none } =
      .ok { toIdentity := "CIDENTITY", amount := 0, targetTick := none,
            inputType := 2, inputBytes := [1] }) :=
  ⟨(claim_C5_procedure_size_validation
      { contract := { name := "QX", contractIndex := some 1,
                      contractPublicKeyHex := none, contractId := some "CIDENTITY" }
        entries := [{ kind := .procedure, name := "DoThing", inputType := 2,
                      inputSize := some 4, outputSize := none }] }).1 "DoThing" [1]
      { kind := .procedure, name := "DoThing", inputType := 2,
        inputSize := some 4, outputSize := none } 1 4 (by decide) (by decide) (by decide)
      (by decide),
    ((claim_C5_procedure_size_validation
      { contract := { name := "QX", contractIndex := some 1,
                      contractPublicKeyHex := none, contractId := some "CIDENTITY" }
        entries := [{ kind := .procedure, name := "DoThing", inputType := 2,
                      inputSize := some 4, outputSize := none }] }).2 (fun _ => "") none
      { name := "DoThing", amount := none, targetTick := none,
        inputBytes := some [1], inputValue := none, codec := none }
      { kind := .procedure, name := "DoThing", inputType := 2,
        inputSize := some 4, outputSize := none } [1] "CIDENTITY"
      (by decide) rfl rfl).2.1⟩

theorem assocGet_assocSet {α β : Type} [DecidableEq α] (m : List (α × β)) (k k' : α) (v : β) :
    assocGet (assocSet m k v) k' = if k = k' then some v else assocGet m k' := by
  induction m with
  | nil => simp [assocSet, assocGet]
  | cons p rest ih =>
    simp only [assocSet]
    by_cases hp : p.1 = k
    · rw [if_pos hp]
      by_cases hk : k = k'
      · simp [assocGet, hk]
      · have hp' : p.1 ≠ k' := by rw [hp]; exact hk
        simp [assocGet, hk, hp']
    · rw [if_neg hp]
      by_cases hpk' : p.1 = k'
      · have hk : ¬ k = k' := fun he => hp (hpk'.trans he.symm)
        simp [assocGet, hpk', hk]
      · simp [assocGet, hpk', ih]

theorem foldl_qbiRegistryStep_byName (files : List QbiFile) (reg : QbiRegistry)
    (name : String) :
    assocGet (files.foldl qbiRegistryStep reg).byName name =
      files.foldl (fun acc f => if f.contract.name = name then some f else acc)
        (assocGet reg.byName name) := by
  induction files generalizing reg with
  | nil => rfl
  | cons f fs ih =>
    simp only [List.foldl_cons]
    rw [ih]
    congr 1
    simp only [qbiRegistryStep]
    rw [assocGet_assocSet]

theorem foldl_qbiRegistryStep_byIndex (files : List QbiFile) (reg : QbiRegistry)
    (idx : Nat) :
    assocGet (files.foldl qbiRegistryStep reg).byIndex idx =
      files.foldl (fun acc f => if f.contract.contractIndex = some idx then some f else acc)
        (assocGet reg.byIndex idx) := by
  induction files generalizing reg with
  | nil => rfl
  | cons f fs ih =>
    simp only [List.foldl_cons]
    rw [ih]
    congr 1
    simp only [qbiRegistryStep]
    cases hci : f.contract.contractIndex with
    | none => simp [hci]
    | some i =>
      rw [assocGet_assocSet]
      by_cases hii : i = idx
      · simp [hii]
      · have : ¬ (some i = some idx) := fun he => hii (Option.some.inj he)
        simp [hii, this]

/-- Counterexample to claim C6: two interface files sharing both the contract
name "QX" and the contract index 1 are accepted by `createQbiRegistry`
without any error (the function is total and performs no duplicate check);
the second file silently overwrites the first in both indexes. -/
theorem claim_C6_counterexample :
    createQbiRegistry
      [{ contract := { name := "QX", contractIndex := some 1,
                       contractPublicKeyHex := none, contractId := none }
         entries := [{ kind := .function, name := "A", inputType := 1,
                       inputSize := none, outputSize := none }] },
       { contract := { name := "QX", contractIndex := some 1,
                       contractPublicKeyHex := none, contractId := none }
         entries := [{ kind := .function, name := "B", inputType := 2,
                       inputSize := none, outputSize := none }] }] =
      { byName := [("QX",
          { contract := { name := "QX", contractIndex := some 1,
                          contractPublicKeyHex := none, contractId := none }
            entries := [{ kind := .function, name := "B", inputType := 2,
                          inputSize := none, outputSize := none }] })]
        byIndex := [(1,
          { contract := { name := "QX", contractIndex := some 1,
                          contractPublicKeyHex := none, contractId := none }
            entries := [{ kind := .function, name := "B", inputType := 2,
                          inputSize := none, outputSize := none }] })] } := by
  decide

/-- Claim C6 as amended: `createQbiRegistry` never fails; a duplicate
`contract.name` (resp. a duplicate declared `contractIndex`) silently
overwrites the earlier binding, so each index maps a name (resp. an index) to
the LAST provided file carrying it. -/
theorem claim_C6_registry_last_wins (files : List QbiFile) :
    (∀ name : String,
      assocGet (createQbiRegistry files).byName name = lastFileNamed files name) ∧
    (∀ idx : Nat,
      assocGet (createQbiRegistry files).byIndex idx = lastFileIndexed files idx) := by
  constructor
  · intro name
    unfold createQbiRegistry lastFileNamed
    rw [foldl_qbiRegistryStep_byName]
    rfl
  · intro idx
    unfold createQbiRegistry lastFileIndexed
    rw [foldl_qbiRegistryStep_byIndex]
    rfl

theorem queryRawLoop_spec (retries : Nat) (expected : Option Int) :
    ∀ (responses : List ByteList) (k : Nat) (res : ByteList) (a : Nat),
      k ≤ retries →
      queryRawLoop retries expected k responses = some (res, a) →
      k < a ∧ a ≤ retries + 1 ∧
      responses.get? (a - k - 1) = some res ∧
      (∀ i, i < a - k - 1 → ∃ b, responses.get? i = some b ∧
          isShortResponse expected b.length = true) ∧
      (isShortResponse expected res.length = true → a = retries + 1) := by
  intro responses
  induction responses with
  | nil =>
    intro k res a hk h
    simp [queryRawLoop] at h
  | cons r rest ih =>
    intro k res a hk h
    simp only [queryRawLoop] at h
    by_cases hshort : isShortResponse expected r.length
    · by_cases hbud : k + 1 > retries
      · rw [if_pos (by simp [hshort, hbud])] at h
        injection h with h
        injection h with h1 h2
        subst h1
        subst h2
        refine ⟨Nat.lt_succ_self k, by omega, by simp, ?_, ?_⟩
        · intro i hi
          omega
        · intro _
          omega
      · rw [if_neg (by simp [hshort]; omega)] at h
        have hk1 : k + 1 ≤ retries := by omega
        obtain ⟨ha1, ha2, hres, hearlier, hlast⟩ := ih (k + 1) res a hk1 h
        refine ⟨by omega, ha2, ?_, ?_, hlast⟩
        · have hidx : a - k - 1 = (a - (k + 1) - 1) + 1 := by omega
          rw [hidx]
          simpa using hres
        · intro i hi
          cases i with
          | zero => exact ⟨r, by simp, hshort⟩
          | succ i0 =>
            have hi0 : i0 < a - (k + 1) - 1 := by omega
            obtain ⟨b, hb1, hb2⟩ := hearlier i0 hi0
            exact ⟨b, by simpa using hb1, hb2⟩
    · rw [if_pos (by simp [hshort])] at h
      injection h with h
      injection h with h1 h2
      subst h1
      subst h2
      refine ⟨Nat.lt_succ_self k, by omega, by simp, ?_, ?_⟩
      · intro i hi
        omega
      · intro hc
        exact absurd hc (by simp [hshort])

/-- Claim C7: the contract query helper `queryRaw` with retry budget
`retries` re-issues `querySmartContract` exactly while the response is short
of `expectedOutputSize` and attempts remain: the returned attempt counter
starts at 1 and never exceeds `retries + 1`, the returned payload is the
response of the final attempt, every earlier attempt saw a short response,
and a short final response occurs only when the budget is exhausted. -/
theorem claim_C7_queryRaw_retry_budget (retries : Nat) (expected : Option Int)
    (responses : List ByteList) (res : ByteList) (a : Nat)
    (h : Contracts.queryRaw retries expected responses = some (res, a)) :
    1 ≤ a ∧ a ≤ retries + 1 ∧
    responses.get? (a - 1) = some res ∧
    (∀ i, i < a - 1 → ∃ b, responses.get? i = some b ∧
        isShortResponse expected b.length = true) ∧
    (isShortResponse expected res.length = true → a = retries + 1) := by
  have hs := queryRawLoop_spec retries expected responses 0 res a (Nat.zero_le _) h
  simpa using hs

/-- Witness for claim C7: with a budget of 2 retries and expected output size
4, a short first response followed by a full second response yields the
second payload with attempt counter 2. -/
theorem claim_C7_queryRaw_retry_budget_witness :
    1 ≤ 2 ∧ 2 ≤ 2 + 1 ∧
      ([[1], [1, 2, 3, 4]] : List ByteList).get? (2 - 1) = some [1, 2, 3, 4] :=
  have happ := claim_C7_queryRaw_retry_budget 2 (some 4) [[1], [1, 2, 3, 4]]
    [1, 2, 3, 4] 2 (by decide)
  ⟨happ.1, happ.2.1, happ.2.2.1⟩

theorem bootstrap_per_sub_frames (store : List (String × LogCursor))
    (cfgLastTick cfgLastLogId : Option Nat) (subs : List LogSubscription)
    (hfr : bootstrapSubscriptions store cfgLastTick cfgLastLogId subs =
      (subs.map fun s => mergeCursor s (getCursorFor store s)).map subscribeFrame) :
    (bootstrapSubscriptions store cfgLastTick cfgLastLogId subs).length = subs.length ∧
    ∀ i sub, subs.get? i = some sub →
      ∃ fr, (bootstrapSubscriptions store cfgLastTick cfgLastLogId subs).get? i = some fr ∧
        fr.action = "subscribe" ∧ fr.scIndex = some sub.scIndex ∧
        fr.logType = some sub.logType ∧ fr.subscriptions = none ∧
        fr.lastLogId = (mergeCursor sub (getCursorFor store sub)).lastLogId ∧
        fr.lastTick = (if (mergeCursor sub (getCursorFor store sub)).lastLogId = none
          then (mergeCursor sub (getCursorFor store sub)).lastTick else none) := by
  rw [hfr]
  constructor
  · simp
  · intro i sub hi
    rw [List.get?_map, List.get?_map, hi]
    refine ⟨subscribeFrame (mergeCursor sub (getCursorFor store sub)), rfl,
      rfl, ?_, ?_, rfl, rfl, rfl⟩
    · cases hc : getCursorFor store sub <;> simp [mergeCursor, subscribeFrame]
    · cases hc : getCursorFor store sub <;> simp [mergeCursor, subscribeFrame]


/-- Claim C8: at log-stream bootstrap, when there are at least two declared
subscriptions and none of them resolves a per-subscription cursor (no
explicit `lastLogId`/`lastTick` and nothing in the cursor store), exactly one
outbound frame is sent, a batched subscribe whose subscriptions array has one
pair per declared subscription; otherwise one subscribe frame is sent per
subscription, in order, each carrying its own resolved cursor (explicit
fields win over the stored cursor, and `lastTick` is suppressed when
`lastLogId` is present). -/
theorem claim_C8_bootstrap_subscribe_frames (store : List (String × LogCursor))
    (cfgLastTick cfgLastLogId : Option Nat) (subs : List LogSubscription) :
    ((2 ≤ subs.length ∧ ∀ sub ∈ subs, sub.lastLogId = none ∧ sub.lastTick = none ∧
        ∀ c, assocGet store (cursorKey sub.scIndex sub.logType) = some c →
          c = { lastTick := none, lastLogId := none }) →
      ∃ fr subsPairs,
        bootstrapSubscriptions store cfgLastTick cfgLastLogId subs = [fr] ∧
        fr.action = "subscribe" ∧ fr.subscriptions = some subsPairs ∧
        subsPairs.length = subs.length) ∧
    ((subs.length < 2 ∨ ∃ sub ∈ subs, sub.lastLogId.isSome ∨ sub.lastTick.isSome ∨
        ∃ c, assocGet store (cursorKey sub.scIndex sub.logType) = some c ∧
          (c.lastLogId.isSome ∨ c.lastTick.isSome)) →
      (bootstrapSubscriptions store cfgLastTick cfgLastLogId subs).length = subs.length ∧
      ∀ i sub, subs.get? i = some sub →
        ∃ fr, (bootstrapSubscriptions store cfgLastTick cfgLastLogId subs).get? i = some fr ∧
          fr.action = "subscribe" ∧ fr.scIndex = some sub.scIndex ∧
          fr.logType = some sub.logType ∧ fr.subscriptions = none ∧
          fr.lastLogId = (mergeCursor sub (getCursorFor store sub)).lastLogId ∧
          fr.lastTick = (if (mergeCursor sub (getCursorFor store sub)).lastLogId = none
            then (mergeCursor sub (getCursorFor store sub)).lastTick else none)) := by
  constructor
  · rintro ⟨hN, hnone⟩
    have hany : (subs.map fun s => mergeCursor s (getCursorFor store s)).any
        (fun s => s.lastLogId.isSome || s.lastTick.isSome) = false := by
      rw [List.any_eq_false]
      intro x hx
      obtain ⟨sub, hsub, rfl⟩ := List.mem_map.mp hx
      obtain ⟨h1, h2, h3⟩ := hnone sub hsub
      cases hget : assocGet store (cursorKey sub.scIndex sub.logType) with
      | none => simp [mergeCursor, getCursorFor, h1, h2, hget]
      | some c =>
        have hc := h3 c hget
        subst hc
        simp [mergeCursor, getCursorFor, h1, h2, hget]
    have hlen1 : subs.length > 1 := by omega
    have hb : bootstrapSubscriptions store cfgLastTick cfgLastLogId subs =
        [subscribeManyFrame (subs.map fun s => mergeCursor s (getCursorFor store s))
          { lastTick := cfgLastTick, lastLogId := cfgLastLogId }] := by
      simp only [bootstrapSubscriptions, hany, Bool.not_false, Bool.true_and, List.length_map]
      rw [if_pos (by simpa using hlen1)]
    exact ⟨_, _, hb, rfl, rfl, by simp [subscribeManyFrame]⟩
  · intro hcase
    rcases hcase with hsmall | ⟨sub, hsub, hsub2⟩
    · have hd : decide ((subs.map fun s => mergeCursor s (getCursorFor store s)).length > 1) =
          false := by
        simp only [decide_eq_false_iff_not, List.length_map]
        omega
      exact bootstrap_per_sub_frames store cfgLastTick cfgLastLogId subs
        (by simp only [bootstrapSubscriptions, hd, Bool.and_false, Bool.false_eq_true, if_false])
    · have hany : (subs.map fun s => mergeCursor s (getCursorFor store s)).any
          (fun s => s.lastLogId.isSome || s.lastTick.isSome) = true := by
        rw [List.any_eq_true]
        refine ⟨mergeCursor sub (getCursorFor store sub), List.mem_map_of_mem _ hsub, ?_⟩
        rcases hsub2 with hL | hT | ⟨c, hget, hcf⟩
        · simp [getCursorFor, mergeCursor, hL]
        · by_cases hL : sub.lastLogId.isSome
          · simp [getCursorFor, mergeCursor, hL]
          · simp [getCursorFor, mergeCursor, hL, hT]
        · by_cases hex : sub.lastLogId.isSome || sub.lastTick.isSome
          · simp only [getCursorFor, hex, if_true, mergeCursor]
          · rcases hcf with hc1 | hc2
            · simp [getCursorFor, mergeCursor, hex, hget, hc1]
            · simp [getCursorFor, mergeCursor, hex, hget, hc2]
      exact bootstrap_per_sub_frames store cfgLastTick cfgLastLogId subs
        (by simp only [bootstrapSubscriptions, hany, Bool.not_true, Bool.false_and,
          Bool.false_eq_true, if_false])

/-- Witness for claim C8: two cursor-free subscriptions with an empty cursor
store produce a single batched subscribe frame with two subscription pairs;
a single subscription with an explicit cursor takes the per-subscription
branch. -/
theorem claim_C8_bootstrap_subscribe_frames_witness :
    (∃ fr subsPairs,
        bootstrapSubscriptions [] none none
          [{ scIndex := 0, logType := 0, lastTick := none, lastLogId := none },
           { scIndex := 1, logType := 3, lastTick := none, lastLogId := none }] = [fr] ∧
        fr.action = "subscribe" ∧ fr.subscriptions = some subsPairs ∧
        subsPairs.length = 2) ∧
    (bootstrapSubscriptions [] none none
        [{ scIndex := 0, logType := 0, lastTick := some 5, lastLogId := none }]).length = 1 :=
  ⟨(claim_C8_bootstrap_subscribe_frames [] none none
      [{ scIndex := 0, logType := 0, lastTick := none, lastLogId := none },
       { scIndex := 1, logType := 3, lastTick := none, lastLogId := none }]).1
      ⟨by decide, by
        intro sub hsub
        refine ⟨?_, ?_, ?_⟩ <;> fin_cases hsub <;> simp [assocGet]⟩,
    ((claim_C8_bootstrap_subscribe_frames [] none none
      [{ scIndex := 0, logType := 0, lastTick := some 5, lastLogId := none }]).2
      (Or.inl (by decide))).1⟩

/-- Counterexample to claim C9: an archive transaction record whose `amount`
arrives as the JSON number 42 (every other field well-formed) is rejected by
`parseQueryTransaction` with an invalid-payload error, because `amount` is
decoded by `parseJsonBigintString`, whose `expectString` step rejects the
JSON number form. -/
theorem claim_C9_counterexample :
    parseQueryTransaction
      (some (.obj [("hash", .str "deadbeef"), ("amount", .num 42),
        ("source", .str "S"), ("destination", .str "D"), ("tickNumber", .num 9),
        ("timestamp", .str "0"), ("inputType", .num 0), ("inputSize", .num 0),
        ("inputData", .str ""), ("signature", .str "")]))
      "transaction" =
      .error (.invalidPayload "transaction.amount") := rfl

/-- Claim C9 as amended: integer fields decoded by `parseJsonInteger`
(tick numbers, epochs, counters, `inputType`, `inputSize`, ...) accept both
the JSON number form and the decimal-string form and normalize both to the
same wide integer, while the fields decoded by `parseJsonBigintString`
(`amount`, `timestamp`, and the balance amount fields) accept only the
decimal-string form and reject the JSON number form. -/
theorem claim_C9_integer_field_forms (s : String) (label : String)
    (hd : isDecimalString s = true) :
    parseJsonInteger (some (.num (decStringToInt s))) label = .ok (decStringToInt s) ∧
    parseJsonInteger (some (.str s)) label = .ok (decStringToInt s) ∧
    parseJsonBigintString (some (.str s)) label = .ok (decStringToInt s) ∧
    parseJsonBigintString (some (.num (decStringToInt s))) label =
      .error (.invalidPayload label) := by
  refine ⟨rfl, ?_, ?_, rfl⟩
  · simp [parseJsonInteger, hd]
  · simp [parseJsonBigintString, expectString, hd]

/-- Witness for claim C9: the value 42 in both forms. -/
theorem claim_C9_integer_field_forms_witness :
    parseJsonInteger (some (.num (decStringToInt "42"))) "balance.validForTick" =
      .ok (decStringToInt "42") ∧
    parseJsonInteger (some (.str "42")) "balance.validForTick" = .ok (decStringToInt "42") ∧
    parseJsonBigintString (some (.str "42")) "balance.validForTick" =
      .ok (decStringToInt "42") ∧
    parseJsonBigintString (some (.num (decStringToInt "42"))) "balance.validForTick" =
      .error (.invalidPayload "balance.validForTick") :=
  claim_C9_integer_field_forms "42" "balance.validForTick" (by decide)

/-- Claim C10 (code bug): `rotatePassphrase` is not all-or-nothing on the
vault handle.  A vault holds two entries under the current key 0; the second
entry's ciphertext does not authenticate under that key (symbolically, it was
produced under key 1).  Before the rotation, `getSeed "a"` succeeds.  The
rotation to key 2 fails on the second entry — and indeed leaves the on-disk
file (entries and KDF header) untouched and the handle on the old key — but
the first entry was already re-encrypted under the new key inside the shared
in-memory map, so the same `getSeed "a"` now fails with
`VaultInvalidPassphraseError`, contradicting the claim that the handle
behaves exactly as before the call. -/
theorem claim_C10_rotate_partial_mutation :
    let e1 : VEntry := { name := "a"
                         identity := "ID-A"
                         seedIndex := 0
                         createdAt := 0
                         updatedAt := 0
                         encrypted := { key := 0, seed := "seed-a" } }
    let e2 : VEntry := { name := "b"
                         identity := "ID-B"
                         seedIndex := 0
                         createdAt := 0
                         updatedAt := 0
                         encrypted := { key := 1, seed := "seed-b" } }
    let s0 : VaultState := { entries := [e1, e2]
                             key := 0
                             fileEntries := [e1, e2]
                             fileKey := 0 }
    getSeed s0 "a" = .ok "seed-a" ∧
    (rotatePassphrase s0 2 7).2 = some .decryptFailed ∧
    (rotatePassphrase s0 2 7).1.fileEntries = s0.fileEntries ∧
    (rotatePassphrase s0 2 7).1.fileKey = s0.fileKey ∧
    (rotatePassphrase s0 2 7).1.key = s0.key ∧
    getSeed (rotatePassphrase s0 2 7).1 "a" = .error .invalidPassphrase :=
  ⟨rfl, rfl, rfl, rfl, rfl, rfl⟩
